import Mathlib

/-!
Shallow embedding of the memory-db store engine
(`internal/db/item.go`, `internal/db/memory.go`, `internal/db/persistence.go`).

Time (`time.Time`) is modelled as a `Nat` instant; durations are `Nat`.
Go's `any`-typed inputs to `newItem`/`Item.update` are modelled by the
closed type `GoValue` covering the dynamic-type cases the Go switch
distinguishes (`string`, `[]string`, `[]interface{}`, anything else).
The stored `*StringOrSlice` pointer is `Option StoredVal` (`none` = nil
pointer); its `Val` field is always a `string` or a `[]string` once stored.
The key→Item Go map is an association list with unique keys by
construction of its update functions.
-/

namespace MemoryDb

/-- Elements of a Go `[]interface{}` value: either a `string` or some
non-string value (the code only ever asks whether each element is a
string). -/
inductive GoAny where
  | str (s : String)
  | nonStr
deriving DecidableEq, Repr

/-- The dynamic-type cases distinguished by the `switch value.(type)`
statements in `newItem` and `Item.update`. -/
inductive GoValue where
  | str (s : String)
  | strSlice (xs : List String)
  | anySlice (xs : List GoAny)
  | other
deriving DecidableEq, Repr

/-- `DataType` from `item.go`: `StringType DataType = iota`,
`StringSliceType`. -/
inductive DataType where
  | stringType
  | stringSliceType
deriving DecidableEq, Repr

/-- The dynamic content of a stored `StringOrSlice.Val`: the code only
ever stores a `string` or a `[]string` there. -/
inductive StoredVal where
  | str (s : String)
  | slice (xs : List String)
deriving DecidableEq, Repr

/-- Typed database errors from `errdefs.go`, plus the untyped
`fmt.Errorf` errors the store methods produce: `keyNotFoundMsg` stands
for the plain `fmt.Errorf("key %s not found for <op>")` errors, and
`wrap e` for `fmt.Errorf("...: %w", e)`. -/
inductive StoreErr where
  | invalidDataType
  | dataNotFound
  | keyExpired
  | keyNotFoundMsg
  | wrap (e : StoreErr)
deriving DecidableEq, Repr

/-- `defaultTTL = 5 * time.Minute` (in seconds). -/
def defaultTTL : Nat := 300

/-- `Item` from `item.go`. `value` is the `*StringOrSlice` pointer
(`none` = nil); `ttl` is the absolute expiry instant (the field is
named `TTL` in the source but holds a `time.Time` deadline). -/
structure Item where
  value : Option StoredVal
  ttl : Nat
  kind : DataType
  createdAt : Nat
  updatedAt : Nat
deriving DecidableEq, Repr

/-- `ItemOptions` from `item.go`: the only option is `WithTTL d`, whose
`apply` sets `TTL = time.Now().Add(d)`. -/
inductive ItemOption where
  | withTTL (d : Nat)
deriving DecidableEq, Repr

/-- `WithTTL.apply`: sets the absolute deadline to `now + d`. -/
def ItemOption.applyOpt (now : Nat) (o : ItemOption) (d : Item) : Item :=
  match o with
  | .withTTL dur => { d with ttl := now + dur }

/-- The `for _, opt := range opts { opt.apply(...) }` loops. -/
def applyOpts (now : Nat) : List ItemOption → Item → Item
  | [], d => d
  | o :: rest, d => applyOpts now rest (o.applyOpt now d)

/-- The element-wise string check of the `[]interface{}` branches of
`newItem` and `Item.update`: succeeds with the coerced `[]string` iff
every element is a string. -/
def coerceStrings : List GoAny → Option (List String)
  | [] => some []
  | .str s :: rest => (coerceStrings rest).map (fun ss => s :: ss)
  | .nonStr :: rest => (coerceStrings rest).bind (fun _ => none)

/-- `newItem` from `item.go`: builds the base item with
`TTL = now + defaultTTL`, `CreatedAt = UpdatedAt = now`, applies the
options, then switches on the dynamic type of `value`. The Go zero
value of `Kind` is `StringType` and of `Value` is nil. -/
def newItem (now : Nat) (value : GoValue) (opts : List ItemOption) :
    Except StoreErr Item :=
  let base : Item := applyOpts now opts
    { value := none, ttl := now + defaultTTL, kind := .stringType,
      createdAt := now, updatedAt := now }
  match value with
  | .str s => .ok { base with kind := .stringType, value := some (.str s) }
  | .strSlice xs =>
      .ok { base with kind := .stringSliceType, value := some (.slice xs) }
  | .anySlice xs =>
      match coerceStrings xs with
      | some ss =>
          .ok { base with kind := .stringSliceType, value := some (.slice ss) }
      | none => .error .invalidDataType
  | .other => .error .invalidDataType

/-- `Item.update` from `item.go`: fails `ErrDataNotFound` when the
current `Value` pointer is nil; otherwise switches on the new value's
dynamic type, setting `kind` and `value` together, then applies the
options and sets `UpdatedAt = updatedAt`. (`WithTTL` calls
`time.Now()` itself; we use the same instant `updatedAt`.) -/
def Item.update (d : Item) (value : GoValue) (updatedAt : Nat)
    (opts : List ItemOption) : Except StoreErr Item :=
  if d.value.isNone then .error .dataNotFound
  else
    match value with
    | .str s =>
        .ok { applyOpts updatedAt opts
                { d with kind := .stringType, value := some (.str s) }
              with updatedAt := updatedAt }
    | .strSlice xs =>
        .ok { applyOpts updatedAt opts
                { d with kind := .stringSliceType, value := some (.slice xs) }
              with updatedAt := updatedAt }
    | .anySlice xs =>
        match coerceStrings xs with
        | some ss =>
            .ok { applyOpts updatedAt opts
                    { d with kind := .stringSliceType, value := some (.slice ss) }
                  with updatedAt := updatedAt }
        | none => .error .invalidDataType
    | .other => .error .invalidDataType

/-- `Item.pushToSlice` from `item.go`: requires `Kind == StringSliceType`,
then requires the stored `Val` to actually be a `[]string` (else
`ErrInvalidDataType`), appends at the end and refreshes `UpdatedAt`.
(A nil `Value` pointer under list kind would panic in Go; it is
unreachable from the engine's operations and modelled as the failing
type assertion.) -/
def Item.pushToSlice (d : Item) (updatedAt : Nat) (value : String) :
    Except StoreErr Item :=
  if d.kind ≠ .stringSliceType then .error .invalidDataType
  else
    match d.value with
    | some (.slice xs) =>
        .ok { d with value := some (.slice (xs ++ [value])),
                     updatedAt := updatedAt }
    | _ => .error .invalidDataType

/-- `Item.popFromSlice` from `item.go`: requires `Kind == StringSliceType`
(else `ErrInvalidDataType`); a failing `[]string` assertion or an empty
slice yields `ErrDataNotFound`; otherwise drops the last element and
refreshes `UpdatedAt`. -/
def Item.popFromSlice (d : Item) (updatedAt : Nat) : Except StoreErr Item :=
  if d.kind ≠ .stringSliceType then .error .invalidDataType
  else
    match d.value with
    | some (.slice xs) =>
        if xs = [] then .error .dataNotFound
        else .ok { d with value := some (.slice xs.dropLast),
                          updatedAt := updatedAt }
    | _ => .error .dataNotFound

/-- `Item.isExpired` from `item.go`: `d.TTL.Before(time.Now())`, i.e.
the deadline is strictly before `now`. -/
def Item.isExpired (d : Item) (now : Nat) : Bool :=
  d.ttl < now

/-! ### The key → Item map -/

/-- The Go `map[string]*Item`, as an association list with unique keys
by construction. -/
abbrev Store := List (String × Item)

/-- Map lookup `db.store[key]`. -/
def mapGet (m : Store) (k : String) : Option Item :=
  match m with
  | [] => none
  | (k', v) :: rest => if k' = k then some v else mapGet rest k

/-- Map assignment `db.store[key] = item` (replaces an existing binding,
otherwise appends). -/
def mapSet (m : Store) (k : String) (v : Item) : Store :=
  match m with
  | [] => [(k, v)]
  | (k', v') :: rest =>
      if k' = k then (k, v) :: rest else (k', v') :: mapSet rest k v

/-- Map deletion `delete(db.store, key)`. -/
def mapDel (m : Store) (k : String) : Store :=
  match m with
  | [] => []
  | (k', v') :: rest =>
      if k' = k then rest else (k', v') :: mapDel rest k

/-! ### Operation records and the store engine (`memory.go`,
`persistence.go`) -/

/-- `enums.DBCommand`. -/
inductive Command where
  | set
  | update
  | remove
  | push
  | pop
deriving DecidableEq, Repr

/-- `Operation` from `persistence.go`: command, key, timestamp and the
embedded `*Item` fragment (`none` = nil pointer, used by `Remove`
records). -/
structure Operation where
  command : Command
  key : String
  time : Nat
  item : Option Item
deriving DecidableEq, Repr

/-- The observable state of a `memoryDB`: the in-memory map, the
sequence of records appended to the durability log file, and the
persistence flag. The lock, logger and file handles carry no
claim-relevant state. -/
structure DB where
  store : Store
  log : List Operation
  persistenceEnabled : Bool
deriving DecidableEq, Repr

/-- `memoryDB.logOperation`: appends the record iff persistence is
enabled and the `Encode` call succeeds; an encode failure is only
warned about, so it leaves the state (and the caller) untouched.
`appendOk` models whether the file append succeeds. -/
def DB.logOperation (db : DB) (appendOk : Bool) (op : Operation) : DB :=
  if db.persistenceEnabled && appendOk then { db with log := db.log ++ [op] }
  else db

/-- `memoryDB.Get`: absent key → `ErrDataNotFound`; present but expired
→ delete and `ErrKeyHasExpired`; otherwise return the item,
state unchanged. -/
def DB.get (db : DB) (now : Nat) (key : String) : DB × Except StoreErr Item :=
  match mapGet db.store key with
  | none => (db, .error .dataNotFound)
  | some it =>
      if it.isExpired now then
        ({ db with store := mapDel db.store key }, .error .keyExpired)
      else (db, .ok it)

/-- `memoryDB.Set`: builds the item with `newItem` (wrapping its error),
logs a `set` record carrying the full new item, then stores it. -/
def DB.set (db : DB) (now : Nat) (appendOk : Bool) (key : String)
    (value : GoValue) (opts : List ItemOption) : DB × Except StoreErr Unit :=
  match newItem now value opts with
  | .error e => (db, .error (.wrap e))
  | .ok it =>
      let db1 := db.logOperation appendOk ⟨.set, key, now, some it⟩
      ({ db1 with store := mapSet db1.store key it }, .ok ())

/-- `memoryDB.Update`: absent key → plain `fmt.Errorf` failure; then
`Item.update` in place (wrapping its error); on success logs an
`update` record carrying the full updated item. No expiry check. -/
def DB.update (db : DB) (now : Nat) (appendOk : Bool) (key : String)
    (value : GoValue) (opts : List ItemOption) : DB × Except StoreErr Unit :=
  match mapGet db.store key with
  | none => (db, .error .keyNotFoundMsg)
  | some it =>
      match it.update value now opts with
      | .error e => (db, .error (.wrap e))
      | .ok it' =>
          let db1 := { db with store := mapSet db.store key it' }
          (db1.logOperation appendOk ⟨.update, key, now, some it'⟩, .ok ())

/-- `memoryDB.Remove`: absent key → plain `fmt.Errorf` failure;
otherwise deletes the key and logs a `remove` record with no item.
No expiry check. -/
def DB.remove (db : DB) (now : Nat) (appendOk : Bool) (key : String) :
    DB × Except StoreErr Unit :=
  match mapGet db.store key with
  | none => (db, .error .keyNotFoundMsg)
  | some _ =>
      let db1 := { db with store := mapDel db.store key }
      (db1.logOperation appendOk ⟨.remove, key, now, none⟩, .ok ())

/-- `memoryDB.Push`: absent key → plain `fmt.Errorf` failure; then
`Item.pushToSlice` (wrapping its error); on success logs a `push`
record whose item fragment holds only the pushed string and
`UpdatedAt` (Go zero values elsewhere: nil-less `TTL = 0`,
`Kind = StringType`, `CreatedAt = 0`), and returns the updated item.
The source accepts `opts` but never uses them, so they are not a
parameter here. No expiry check. -/
def DB.push (db : DB) (now : Nat) (appendOk : Bool) (key : String)
    (value : String) : DB × Except StoreErr Item :=
  match mapGet db.store key with
  | none => (db, .error .keyNotFoundMsg)
  | some it =>
      match it.pushToSlice now value with
      | .error e => (db, .error (.wrap e))
      | .ok it' =>
          let db1 := { db with store := mapSet db.store key it' }
          (db1.logOperation appendOk
             ⟨.push, key, now,
              some { value := some (.str value), ttl := 0,
                     kind := .stringType, createdAt := 0, updatedAt := now }⟩,
           .ok it')

/-- `memoryDB.Pop`: absent key → plain `fmt.Errorf` failure; then
`Item.popFromSlice` (wrapping its error); on success logs a `pop`
record whose item fragment holds only `UpdatedAt`, and returns the
updated item. No expiry check. -/
def DB.pop (db : DB) (now : Nat) (appendOk : Bool) (key : String) :
    DB × Except StoreErr Item :=
  match mapGet db.store key with
  | none => (db, .error .keyNotFoundMsg)
  | some it =>
      match it.popFromSlice now with
      | .error e => (db, .error (.wrap e))
      | .ok it' =>
          let db1 := { db with store := mapSet db.store key it' }
          (db1.logOperation appendOk
             ⟨.pop, key, now,
              some { value := none, ttl := 0, kind := .stringType,
                     createdAt := 0, updatedAt := now }⟩,
           .ok it')

/-! ### Startup replay (`loadStoredData`) -/

/-- One step of the replay loop in `loadStoredData`. The `set` branch
stores the logged item wholesale; the `update` branch copies only
`Value` and `UpdatedAt` (not `Kind` or `TTL`) into the existing item;
`remove`/`push`/`pop` require the key and delegate to the item
operations. Branches reading a nil item pointer or a non-string pushed
value would panic in Go; they are unreachable for logs the engine
itself produced and are modelled as replay failures. -/
def replayOp (st : Store) (op : Operation) : Except StoreErr Store :=
  match op.command with
  | .set =>
      match op.item with
      | some it => .ok (mapSet st op.key it)
      | none => .error .invalidDataType
  | .update =>
      match mapGet st op.key with
      | some it =>
          match op.item with
          | some logged =>
              .ok (mapSet st op.key
                { it with value := logged.value, updatedAt := logged.updatedAt })
          | none => .error .invalidDataType
      | none => .error .keyNotFoundMsg
  | .remove =>
      match mapGet st op.key with
      | some _ => .ok (mapDel st op.key)
      | none => .error .keyNotFoundMsg
  | .push =>
      match mapGet st op.key with
      | some it =>
          match op.item with
          | some logged =>
              match logged.value with
              | some (.str s) =>
                  match it.pushToSlice logged.updatedAt s with
                  | .ok it' => .ok (mapSet st op.key it')
                  | .error e => .error (.wrap e)
              | _ => .error .invalidDataType
          | none => .error .invalidDataType
      | none => .error .keyNotFoundMsg
  | .pop =>
      match mapGet st op.key with
      | some it =>
          match op.item with
          | some logged =>
              match it.popFromSlice logged.updatedAt with
              | .ok it' => .ok (mapSet st op.key it')
              | .error e => .error (.wrap e)
          | none => .error .invalidDataType
      | none => .error .keyNotFoundMsg

/-- The decode-replay loop of `loadStoredData` over the decoded records,
in file order, aborting on the first failure. -/
def replayLog (st : Store) : List Operation → Except StoreErr Store
  | [] => .ok st
  | op :: rest =>
      match replayOp st op with
      | .ok st' => replayLog st' rest
      | .error e => .error e

/-- `loadStoredData`: replays the whole log against an initially empty
map. (JSON encoding of the record fields round-trips the string /
string-list distinction via `StringOrSlice`, so the log file is
modelled directly as the list of records written by `logOperation`.) -/
def loadStoredData (log : List Operation) : Except StoreErr Store :=
  replayLog [] log

/-! ### Sequences of mutating operations (for the replay claims) -/

/-- A mutating public operation, with the arguments the engine receives. -/
inductive MutOp where
  | set (key : String) (v : GoValue) (opts : List ItemOption)
  | update (key : String) (v : GoValue) (opts : List ItemOption)
  | remove (key : String)
  | push (key : String) (v : String)
  | pop (key : String)
deriving DecidableEq, Repr

/-- Run one mutating operation at instant `now` (log appends succeed). -/
def runOp (db : DB) (now : Nat) (op : MutOp) : DB :=
  match op with
  | .set k v o => (db.set now true k v o).1
  | .update k v o => (db.update now true k v o).1
  | .remove k => (db.remove now true k).1
  | .push k v => (db.push now true k v).1
  | .pop k => (db.pop now true k).1

/-- Run a timestamped sequence of mutating operations. -/
def runOps (db : DB) : List (Nat × MutOp) → DB
  | [] => db
  | (t, op) :: rest => runOps (runOp db t op) rest

/-- A fresh, persistence-enabled store over an empty log directory. -/
def freshPersistentDB : DB :=
  { store := [], log := [], persistenceEnabled := true }

/-- The redundant-tag invariant of `Entry`: the `kind` tag matches the
active variant of the stored value. (Reachable stored items always
have a non-nil value.) -/
def Item.kindMatches (d : Item) : Bool :=
  match d.value, d.kind with
  | some (.str _), .stringType => true
  | some (.slice _), .stringSliceType => true
  | _, _ => false

/-! ### Concrete states used by witnesses and counterexamples -/

/-- A string-kind item whose deadline is instant 5. -/
def sampleStrItem : Item :=
  { value := some (.str "v"), ttl := 5, kind := .stringType,
    createdAt := 0, updatedAt := 0 }

/-- A list-kind item holding `["x", "y"]`, live until instant 100. -/
def sampleListItem : Item :=
  { value := some (.slice ["x", "y"]), ttl := 100, kind := .stringSliceType,
    createdAt := 0, updatedAt := 0 }

/-- A store holding only `sampleStrItem` at key `"k"`. -/
def expiredDB : DB :=
  { store := [("k", sampleStrItem)], log := [], persistenceEnabled := false }

/-- An empty, persistence-disabled store. -/
def emptyDB : DB :=
  { store := [], log := [], persistenceEnabled := false }

/-- The two-operation history `Set "k" "s"; Update "k" ["a"]` on a
fresh persistence-enabled store: the `Update` changes the value variant
from string to list. -/
def kindChangeHistory : DB :=
  runOps freshPersistentDB
    [(1, .set "k" (.str "s") []), (2, .update "k" (.strSlice ["a"]) [])]

/-! ### Helper lemmas -/

theorem mapGet_mapSet_self (m : Store) (k : String) (v : Item) :
    mapGet (mapSet m k v) k = some v := by
  induction m with
  | nil => simp [mapSet, mapGet]
  | cons hd tl ih =>
      obtain ⟨k', v'⟩ := hd
      by_cases h : k' = k
      · simp [mapSet, mapGet, h]
      · simp [mapSet, mapGet, h, ih]

@[simp]
theorem logOperation_store (db : DB) (ok : Bool) (op : Operation) :
    (db.logOperation ok op).store = db.store := by
  unfold DB.logOperation
  split <;> rfl

@[simp]
theorem logOperation_persistenceEnabled (db : DB) (ok : Bool) (op : Operation) :
    (db.logOperation ok op).persistenceEnabled = db.persistenceEnabled := by
  unfold DB.logOperation
  split <;> rfl

theorem logOperation_log_true (db : DB) (op : Operation)
    (hpe : db.persistenceEnabled = true) :
    (db.logOperation true op).log = db.log ++ [op] := by
  simp [DB.logOperation, hpe]

@[simp]
theorem logOperation_log_false (db : DB) (op : Operation) :
    (db.logOperation false op).log = db.log := by
  simp [DB.logOperation]

@[simp]
theorem applyOpts_value (now : Nat) (opts : List ItemOption) (d : Item) :
    (applyOpts now opts d).value = d.value := by
  induction opts generalizing d with
  | nil => rfl
  | cons o rest ih =>
      cases o with
      | withTTL dur => simpa [applyOpts, ItemOption.applyOpt] using ih _

@[simp]
theorem applyOpts_kind (now : Nat) (opts : List ItemOption) (d : Item) :
    (applyOpts now opts d).kind = d.kind := by
  induction opts generalizing d with
  | nil => rfl
  | cons o rest ih =>
      cases o with
      | withTTL dur => simpa [applyOpts, ItemOption.applyOpt] using ih _

@[simp]
theorem applyOpts_createdAt (now : Nat) (opts : List ItemOption) (d : Item) :
    (applyOpts now opts d).createdAt = d.createdAt := by
  induction opts generalizing d with
  | nil => rfl
  | cons o rest ih =>
      cases o with
      | withTTL dur => simpa [applyOpts, ItemOption.applyOpt] using ih _

@[simp]
theorem applyOpts_updatedAt (now : Nat) (opts : List ItemOption) (d : Item) :
    (applyOpts now opts d).updatedAt = d.updatedAt := by
  induction opts generalizing d with
  | nil => rfl
  | cons o rest ih =>
      cases o with
      | withTTL dur => simpa [applyOpts, ItemOption.applyOpt] using ih _

theorem applyOpts_ttl_ge (now : Nat) (opts : List ItemOption) (d : Item)
    (h : now ≤ d.ttl) : now ≤ (applyOpts now opts d).ttl := by
  induction opts generalizing d with
  | nil => exact h
  | cons o rest ih =>
      cases o with
      | withTTL dur =>
          exact ih _ (by simp [ItemOption.applyOpt])

/-! ### Claim theorems -/

/-- C8 (counterexample to the claim as stated): the claim asserts both
that `isExpired now` is true exactly when `expiresAt` is strictly
before `now` and that the entry is live exactly while `now < expiresAt`.
At the boundary instant `now = expiresAt` (here both 5) the code's
`isExpired` is `false` — the entry is still live — yet `now < expiresAt`
fails, refuting the second half. -/
theorem isExpired_boundary :
    sampleStrItem.isExpired 5 = false ∧ ¬ (5 < sampleStrItem.ttl) := by
  decide

/-- C8 (amended): `isExpired now` is true exactly when `expiresAt` is
strictly before `now`; equivalently, the entry is live exactly while
`now ≤ expiresAt` (inclusive of the deadline instant). -/
theorem isExpired_iff (d : Item) (now : Nat) :
    (d.isExpired now = true ↔ d.ttl < now) ∧
    (d.isExpired now = false ↔ now ≤ d.ttl) := by
  constructor
  · simp [Item.isExpired]
  · simp [Item.isExpired]

/-- C8 witness: a concrete instance of the amended equivalence. -/
theorem isExpired_iff_witness : sampleStrItem.isExpired 7 = true :=
  (isExpired_iff sampleStrItem 7).1.mpr (by decide)

/-- C4: `Get` returns `ErrDataNotFound` when the key is absent; when the
key is present but expired it deletes the entry and returns the
distinct `ErrKeyHasExpired`; otherwise it returns the stored item and
leaves the state unchanged. -/
theorem get_contract (db : DB) (now : Nat) (key : String) :
    (mapGet db.store key = none →
        db.get now key = (db, .error .dataNotFound)) ∧
    (∀ it, mapGet db.store key = some it → it.isExpired now = true →
        db.get now key =
          ({ db with store := mapDel db.store key }, .error .keyExpired)) ∧
    (∀ it, mapGet db.store key = some it → it.isExpired now = false →
        db.get now key = (db, .ok it)) ∧
    StoreErr.keyExpired ≠ StoreErr.dataNotFound := by
  refine ⟨fun h => ?_, fun it h he => ?_, fun it h he => ?_, by decide⟩
  · simp [DB.get, h]
  · simp [DB.get, h, he]
  · simp [DB.get, h, he]

/-- C4 witness: on the empty store, `Get` fails with `NotFound` and
changes nothing. -/
theorem get_contract_witness :
    emptyDB.get 7 "k" = (emptyDB, .error .dataNotFound) :=
  (get_contract emptyDB 7 "k").1 rfl

/-- C6: on a list-kind entry holding `xs`, `pushToSlice` appends the new
element at the end (preserving the existing order), and an immediately
following `popFromSlice` removes exactly that last element, restoring
the list to its exact pre-push content. -/
theorem push_append_pop_inverse (d : Item) (xs : List String)
    (t1 t2 : Nat) (x : String)
    (hk : d.kind = .stringSliceType) (hv : d.value = some (.slice xs)) :
    ∃ d', d.pushToSlice t1 x = .ok d' ∧
      d'.value = some (.slice (xs ++ [x])) ∧
      ∃ d'', d'.popFromSlice t2 = .ok d'' ∧ d''.value = some (.slice xs) := by
  refine ⟨{ d with value := some (.slice (xs ++ [x])), updatedAt := t1 },
    ?_, rfl, { d with value := some (.slice xs), updatedAt := t2 }, ?_, rfl⟩
  · simp [Item.pushToSlice, hk, hv]
  · simp [Item.popFromSlice, hk]

/-- C6 witness: pushing `"z"` onto `["x", "y"]` and popping restores
`["x", "y"]`. -/
theorem push_append_pop_inverse_witness :
    ∃ d', sampleListItem.pushToSlice 1 "z" = .ok d' ∧
      d'.value = some (.slice (["x", "y"] ++ ["z"])) ∧
      ∃ d'', d'.popFromSlice 2 = .ok d'' ∧
        d''.value = some (.slice ["x", "y"]) :=
  push_append_pop_inverse sampleListItem ["x", "y"] 1 2 "z" rfl rfl

/-- C7: `pushToSlice` fails `InvalidType` whenever the kind tag is not
list (as does `popFromSlice`); on a list-kind entry, `popFromSlice`
fails `NotFound` when the list is empty and succeeds when it is
non-empty. -/
theorem push_pop_type_guard (d : Item) (t : Nat) (x : String) :
    (d.kind ≠ .stringSliceType →
        d.pushToSlice t x = .error .invalidDataType ∧
        d.popFromSlice t = .error .invalidDataType) ∧
    (∀ xs, d.kind = .stringSliceType → d.value = some (.slice xs) →
        (xs = [] → d.popFromSlice t = .error .dataNotFound) ∧
        (xs ≠ [] → ∃ d', d.popFromSlice t = .ok d')) := by
  refine ⟨fun h => ?_, fun xs hk hv => ⟨fun he => ?_, fun hne => ?_⟩⟩
  · exact ⟨by simp [Item.pushToSlice, h], by simp [Item.popFromSlice, h]⟩
  · simp [Item.popFromSlice, hk, hv, he]
  · exact ⟨{ d with value := some (.slice xs.dropLast), updatedAt := t },
      by simp [Item.popFromSlice, hk, hv, hne]⟩

/-- C7 witness: pushing to and popping from a string-kind entry both
fail `InvalidType`; popping an empty list fails `NotFound`; popping a
non-empty list succeeds. -/
theorem push_pop_type_guard_witness :
    (sampleStrItem.pushToSlice 1 "z" = .error .invalidDataType ∧
      sampleStrItem.popFromSlice 1 = .error .invalidDataType) ∧
    ∃ d', sampleListItem.popFromSlice 1 = .ok d' :=
  ⟨(push_pop_type_guard sampleStrItem 1 "z").1 (by decide),
   ((push_pop_type_guard sampleListItem 1 "z").2 ["x", "y"] rfl rfl).2
     (by decide)⟩

/-- C1 (the code falsifies the claim): after `Set "k" "s"` followed by
`Update "k" ["a"]` on a fresh persistence-enabled store, replaying the
log yields the same key set and the same value (the list `["a"]`), but
the replayed kind tag is `StringType` while the in-memory kind
immediately before shutdown is `StringSliceType` — `loadStoredData`'s
update branch copies `Value` and `UpdatedAt` but not `Kind`. No expiry
is involved. -/
theorem replay_kind_divergence :
    (mapGet kindChangeHistory.store "k").map Item.kind
        = some .stringSliceType ∧
    ((loadStoredData kindChangeHistory.log).toOption.bind
        (fun st => mapGet st "k")).map Item.kind = some .stringType ∧
    ((loadStoredData kindChangeHistory.log).toOption.bind
        (fun st => mapGet st "k")).map Item.value
      = (mapGet kindChangeHistory.store "k").map Item.value ∧
    ((loadStoredData kindChangeHistory.log).toOption.map
        (fun st => st.map Prod.fst))
      = some (kindChangeHistory.store.map Prod.fst) ∧
    DataType.stringType ≠ DataType.stringSliceType := by
  refine ⟨rfl, rfl, rfl, rfl, by decide⟩

/-- C2 (the code falsifies the claim): the claim requires every
operation that changes the value variant — including startup replay —
to update `kind` together with `value`. Running
`Set "k" "s"; Update "k" ["a"]` in memory keeps the invariant, but
replaying the produced log leaves an item whose `kind` tag no longer
matches its value variant. -/
theorem replay_breaks_kind_invariant :
    (mapGet kindChangeHistory.store "k").map Item.kindMatches = some true ∧
    ((loadStoredData kindChangeHistory.log).toOption.bind
        (fun st => mapGet st "k")).map Item.kindMatches = some false := by
  refine ⟨rfl, rfl⟩

/-- C3 (counterexample to the claim as stated): a present-but-expired
entry is not treated as absent by every operation. With `"k"` expired
(`isExpired 10` holds), `Remove "k"` succeeds, whereas on a store where
`"k"` is absent the same call fails — so `Remove` does not behave as if
the expired key were absent. -/
theorem expired_key_not_treated_as_absent :
    (mapGet expiredDB.store "k").map (fun it => it.isExpired 10)
        = some true ∧
    (expiredDB.remove 10 true "k").2 = .ok () ∧
    (emptyDB.remove 10 true "k").2 = .error .keyNotFoundMsg := by
  refine ⟨rfl, rfl, rfl⟩

/-- C3 (amended): only `Get` treats a present-but-expired key specially,
deleting it and returning the `Expired` error; `Remove` succeeds and
deletes it exactly as for a live entry; and `Update`, `Push` and `Pop`
perform no expiry check at all — their results are determined solely by
the entry's content, exactly as for a live entry. (`Set` overwrites
unconditionally in either case.) -/
theorem expired_entry_semantics (db : DB) (now : Nat) (ok : Bool)
    (key : String) (it : Item)
    (hp : mapGet db.store key = some it) (he : it.isExpired now = true) :
    (db.get now key).2 = .error .keyExpired ∧
    (db.get now key).1.store = mapDel db.store key ∧
    (db.remove now ok key).2 = .ok () ∧
    (db.remove now ok key).1.store = mapDel db.store key ∧
    (∀ v opts, (db.update now ok key v opts).2 =
        match it.update v now opts with
        | .ok _ => .ok ()
        | .error e => .error (.wrap e)) ∧
    (∀ s, (db.push now ok key s).2 =
        match it.pushToSlice now s with
        | .ok it' => .ok it'
        | .error e => .error (.wrap e)) ∧
    ((db.pop now ok key).2 =
        match it.popFromSlice now with
        | .ok it' => .ok it'
        | .error e => .error (.wrap e)) := by
  refine ⟨?_, ?_, ?_, ?_, fun v opts => ?_, fun s => ?_, ?_⟩
  · simp [DB.get, hp, he]
  · simp [DB.get, hp, he]
  · simp [DB.remove, hp]
  · simp [DB.remove, hp]
  · cases hu : it.update v now opts <;> simp [DB.update, hp, hu]
  · cases hu : it.pushToSlice now s <;> simp [DB.push, hp, hu]
  · cases hu : it.popFromSlice now <;> simp [DB.pop, hp, hu]

/-- C3 witness: the amended semantics at the concrete expired entry. -/
theorem expired_entry_semantics_witness :
    (expiredDB.get 10 "k").2 = .error .keyExpired ∧
    (expiredDB.remove 10 true "k").1.store = mapDel expiredDB.store "k" :=
  ⟨(expired_entry_semantics expiredDB 10 true "k" sampleStrItem rfl rfl).1,
   (expired_entry_semantics expiredDB 10 true "k" sampleStrItem rfl
       rfl).2.2.2.1⟩

/-- C5: for every valid value (a string or a list of strings), `Set`
succeeds on any store — whether or not the key exists — fully replacing
any previous entry, resetting `createdAt` and `updatedAt` to now, and
an immediately following `Get` returns the value unchanged in both kind
and content. -/
theorem set_roundtrip (db : DB) (now : Nat) (ok : Bool) (key : String)
    (v : GoValue) (opts : List ItemOption)
    (hv : (∃ s, v = GoValue.str s) ∨ (∃ xs, v = GoValue.strSlice xs)) :
    ∃ it,
      (db.set now ok key v opts).2 = .ok () ∧
      (db.set now ok key v opts).1.store = mapSet db.store key it ∧
      it.createdAt = now ∧ it.updatedAt = now ∧
      ((db.set now ok key v opts).1.get now key).2 = .ok it ∧
      (∀ s, v = GoValue.str s →
          it.kind = .stringType ∧ it.value = some (.str s)) ∧
      (∀ xs, v = GoValue.strSlice xs →
          it.kind = .stringSliceType ∧ it.value = some (.slice xs)) := by
  have hbase : now ≤ (applyOpts now opts
      { value := none, ttl := now + defaultTTL, kind := .stringType,
        createdAt := now, updatedAt := now } : Item).ttl :=
    applyOpts_ttl_ge _ _ _ (Nat.le_add_right _ _)
  obtain ⟨s, rfl⟩ | ⟨xs, rfl⟩ := hv
  · refine ⟨{ applyOpts now opts
        { value := none, ttl := now + defaultTTL, kind := .stringType,
          createdAt := now, updatedAt := now }
        with kind := .stringType, value := some (.str s) },
      rfl, ?_, ?_, ?_, ?_, ?_, ?_⟩
    · simp [DB.set, newItem]
    · simp
    · simp
    · simp [DB.set, newItem, DB.get, mapGet_mapSet_self, Item.isExpired,
        Nat.not_lt.mpr hbase]
    · intro s' hs
      cases hs
      exact ⟨rfl, rfl⟩
    · intro xs h
      exact nomatch h
  · refine ⟨{ applyOpts now opts
        { value := none, ttl := now + defaultTTL, kind := .stringType,
          createdAt := now, updatedAt := now }
        with kind := .stringSliceType, value := some (.slice xs) },
      rfl, ?_, ?_, ?_, ?_, ?_, ?_⟩
    · simp [DB.set, newItem]
    · simp
    · simp
    · simp [DB.set, newItem, DB.get, mapGet_mapSet_self, Item.isExpired,
        Nat.not_lt.mpr hbase]
    · intro s' hs
      exact nomatch hs
    · intro xs' h
      cases h
      exact ⟨rfl, rfl⟩

/-- C5 witness: `Set "a" "hello"` on the empty store at instant 3,
followed by `Get "a"` at the same instant. -/
theorem set_roundtrip_witness :
    ∃ it,
      (emptyDB.set 3 true "a" (GoValue.str "hello") []).2 = .ok () ∧
      (emptyDB.set 3 true "a" (GoValue.str "hello") []).1.store
          = mapSet emptyDB.store "a" it ∧
      it.createdAt = 3 ∧ it.updatedAt = 3 ∧
      ((emptyDB.set 3 true "a" (GoValue.str "hello") []).1.get 3 "a").2
          = .ok it ∧
      (∀ s, GoValue.str "hello" = GoValue.str s →
          it.kind = .stringType ∧ it.value = some (.str s)) ∧
      (∀ xs, GoValue.str "hello" = GoValue.strSlice xs →
          it.kind = .stringSliceType ∧ it.value = some (.slice xs)) :=
  set_roundtrip emptyDB 3 true "a" (GoValue.str "hello") []
    (Or.inl ⟨"hello", rfl⟩)

/-- C9: with persistence enabled, every successful mutating operation
appends exactly one record to the log before returning success; a
failed operation appends nothing (and changes nothing); and a failure
of the append itself changes neither the operation's result nor the
resulting map — only the log stays as it was. -/
theorem log_one_record_per_success (db : DB) (now : Nat) (key : String)
    (hpe : db.persistenceEnabled = true) :
    (∀ v opts,
      (∀ u, (db.set now true key v opts).2 = .ok u →
          ∃ r, (db.set now true key v opts).1.log = db.log ++ [r]) ∧
      (∀ e, (db.set now true key v opts).2 = .error e →
          (db.set now true key v opts).1 = db) ∧
      ((db.set now false key v opts).2 = (db.set now true key v opts).2 ∧
       (db.set now false key v opts).1.store
          = (db.set now true key v opts).1.store ∧
       (db.set now false key v opts).1.log = db.log)) ∧
    (∀ v opts,
      (∀ u, (db.update now true key v opts).2 = .ok u →
          ∃ r, (db.update now true key v opts).1.log = db.log ++ [r]) ∧
      (∀ e, (db.update now true key v opts).2 = .error e →
          (db.update now true key v opts).1 = db) ∧
      ((db.update now false key v opts).2
          = (db.update now true key v opts).2 ∧
       (db.update now false key v opts).1.store
          = (db.update now true key v opts).1.store ∧
       (db.update now false key v opts).1.log = db.log)) ∧
    ((∀ u, (db.remove now true key).2 = .ok u →
          ∃ r, (db.remove now true key).1.log = db.log ++ [r]) ∧
     (∀ e, (db.remove now true key).2 = .error e →
          (db.remove now true key).1 = db) ∧
     ((db.remove now false key).2 = (db.remove now true key).2 ∧
      (db.remove now false key).1.store = (db.remove now true key).1.store ∧
      (db.remove now false key).1.log = db.log)) ∧
    (∀ v,
      (∀ u, (db.push now true key v).2 = .ok u →
          ∃ r, (db.push now true key v).1.log = db.log ++ [r]) ∧
      (∀ e, (db.push now true key v).2 = .error e →
          (db.push now true key v).1 = db) ∧
      ((db.push now false key v).2 = (db.push now true key v).2 ∧
       (db.push now false key v).1.store = (db.push now true key v).1.store ∧
       (db.push now false key v).1.log = db.log)) ∧
    ((∀ u, (db.pop now true key).2 = .ok u →
          ∃ r, (db.pop now true key).1.log = db.log ++ [r]) ∧
     (∀ e, (db.pop now true key).2 = .error e →
          (db.pop now true key).1 = db) ∧
     ((db.pop now false key).2 = (db.pop now true key).2 ∧
      (db.pop now false key).1.store = (db.pop now true key).1.store ∧
      (db.pop now false key).1.log = db.log)) := by
  refine ⟨fun v opts => ?_, fun v opts => ?_, ?_, fun v => ?_, ?_⟩
  · cases hni : newItem now v opts with
    | error e =>
        exact ⟨fun u hu => by simp [DB.set, hni] at hu,
               fun e' _ => by simp [DB.set, hni],
               by simp [DB.set, hni], by simp [DB.set, hni],
               by simp [DB.set, hni]⟩
    | ok it =>
        exact ⟨fun u _ => ⟨⟨.set, key, now, some it⟩,
                 by simp [DB.set, hni, DB.logOperation, hpe]⟩,
               fun e he => by simp [DB.set, hni] at he,
               by simp [DB.set, hni],
               by simp [DB.set, hni],
               by simp [DB.set, hni, DB.logOperation]⟩
  · cases hg : mapGet db.store key with
    | none =>
        exact ⟨fun u hu => by simp [DB.update, hg] at hu,
               fun e _ => by simp [DB.update, hg],
               by simp [DB.update, hg], by simp [DB.update, hg],
               by simp [DB.update, hg]⟩
    | some it =>
        cases hu : it.update v now opts with
        | error e =>
            exact ⟨fun u h => by simp [DB.update, hg, hu] at h,
                   fun e' _ => by simp [DB.update, hg, hu],
                   by simp [DB.update, hg, hu], by simp [DB.update, hg, hu],
                   by simp [DB.update, hg, hu]⟩
        | ok it' =>
            exact ⟨fun u _ => ⟨⟨.update, key, now, some it'⟩,
                     by simp [DB.update, hg, hu, DB.logOperation, hpe]⟩,
                   fun e he => by simp [DB.update, hg, hu] at he,
                   by simp [DB.update, hg, hu],
                   by simp [DB.update, hg, hu],
                   by simp [DB.update, hg, hu, DB.logOperation]⟩
  · cases hg : mapGet db.store key with
    | none =>
        exact ⟨fun u hu => by simp [DB.remove, hg] at hu,
               fun e _ => by simp [DB.remove, hg],
               by simp [DB.remove, hg], by simp [DB.remove, hg],
               by simp [DB.remove, hg]⟩
    | some it =>
        exact ⟨fun u _ => ⟨⟨.remove, key, now, none⟩,
                 by simp [DB.remove, hg, DB.logOperation, hpe]⟩,
               fun e he => by simp [DB.remove, hg] at he,
               by simp [DB.remove, hg],
               by simp [DB.remove, hg],
               by simp [DB.remove, hg, DB.logOperation]⟩
  · cases hg : mapGet db.store key with
    | none =>
        exact ⟨fun u hu => by simp [DB.push, hg] at hu,
               fun e _ => by simp [DB.push, hg],
               by simp [DB.push, hg], by simp [DB.push, hg],
               by simp [DB.push, hg]⟩
    | some it =>
        cases hu : it.pushToSlice now v with
        | error e =>
            exact ⟨fun u h => by simp [DB.push, hg, hu] at h,
                   fun e' _ => by simp [DB.push, hg, hu],
                   by simp [DB.push, hg, hu], by simp [DB.push, hg, hu],
                   by simp [DB.push, hg, hu]⟩
        | ok it' =>
            exact ⟨fun u _ => ⟨⟨.push, key, now,
                     some { value := some (.str v), ttl := 0,
                            kind := .stringType, createdAt := 0,
                            updatedAt := now }⟩,
                     by simp [DB.push, hg, hu, DB.logOperation, hpe]⟩,
                   fun e he => by simp [DB.push, hg, hu] at he,
                   by simp [DB.push, hg, hu],
                   by simp [DB.push, hg, hu],
                   by simp [DB.push, hg, hu, DB.logOperation]⟩
  · cases hg : mapGet db.store key with
    | none =>
        exact ⟨fun u hu => by simp [DB.pop, hg] at hu,
               fun e _ => by simp [DB.pop, hg],
               by simp [DB.pop, hg], by simp [DB.pop, hg],
               by simp [DB.pop, hg]⟩
    | some it =>
        cases hu : it.popFromSlice now with
        | error e =>
            exact ⟨fun u h => by simp [DB.pop, hg, hu] at h,
                   fun e' _ => by simp [DB.pop, hg, hu],
                   by simp [DB.pop, hg, hu], by simp [DB.pop, hg, hu],
                   by simp [DB.pop, hg, hu]⟩
        | ok it' =>
            exact ⟨fun u _ => ⟨⟨.pop, key, now,
                     some { value := none, ttl := 0, kind := .stringType,
                            createdAt := 0, updatedAt := now }⟩,
                     by simp [DB.pop, hg, hu, DB.logOperation, hpe]⟩,
                   fun e he => by simp [DB.pop, hg, hu] at he,
                   by simp [DB.pop, hg, hu],
                   by simp [DB.pop, hg, hu],
                   by simp [DB.pop, hg, hu, DB.logOperation]⟩

/-- C9 witness: a successful `Set` on a fresh persistence-enabled store
appends exactly one record. -/
theorem log_one_record_per_success_witness :
    ∃ r, (freshPersistentDB.set 0 true "k" (GoValue.str "a") []).1.log
        = freshPersistentDB.log ++ [r] :=
  ((log_one_record_per_success freshPersistentDB 0 "k" rfl).1
      (GoValue.str "a") []).1 () rfl

/-- C10: whenever a public mutating operation returns an error, the
whole observable state — map and log alike — is exactly as it was
before the call. -/
theorem failed_op_leaves_state (db : DB) (now : Nat) (ok : Bool)
    (key : String) :
    (∀ v opts e, (db.set now ok key v opts).2 = .error e →
        (db.set now ok key v opts).1 = db) ∧
    (∀ v opts e, (db.update now ok key v opts).2 = .error e →
        (db.update now ok key v opts).1 = db) ∧
    (∀ e, (db.remove now ok key).2 = .error e →
        (db.remove now ok key).1 = db) ∧
    (∀ v e, (db.push now ok key v).2 = .error e →
        (db.push now ok key v).1 = db) ∧
    (∀ e, (db.pop now ok key).2 = .error e →
        (db.pop now ok key).1 = db) := by
  refine ⟨fun v opts e he => ?_, fun v opts e he => ?_, fun e he => ?_,
    fun v e he => ?_, fun e he => ?_⟩
  · cases hni : newItem now v opts <;> simp [DB.set, hni] at he ⊢
  · cases hg : mapGet db.store key with
    | none => simp [DB.update, hg]
    | some it =>
        cases hu : it.update v now opts <;>
          simp [DB.update, hg, hu] at he ⊢
  · cases hg : mapGet db.store key with
    | none => simp [DB.remove, hg]
    | some it => simp [DB.remove, hg] at he
  · cases hg : mapGet db.store key with
    | none => simp [DB.push, hg]
    | some it =>
        cases hu : it.pushToSlice now v <;>
          simp [DB.push, hg, hu] at he ⊢
  · cases hg : mapGet db.store key with
    | none => simp [DB.pop, hg]
    | some it =>
        cases hu : it.popFromSlice now <;>
          simp [DB.pop, hg, hu] at he ⊢

/-- C10 witness: a `Set` with an invalid value type fails and leaves the
store exactly as before. -/
theorem failed_op_leaves_state_witness :
    (emptyDB.set 0 true "k" GoValue.other []).1 = emptyDB :=
  (failed_op_leaves_state emptyDB 0 true "k").1 GoValue.other []
    (.wrap .invalidDataType) rfl

end MemoryDb
